import Mathlib

/-!
Formal model of the screener core of `src/app.py` (Taiwan stock screener).

The embedded functions are `calculate_indicators`, `check_strategies`,
`process_stock` and the fan-out/fan-in scan loop.  Numeric cells are
modelled as exact rationals; a pandas NaN cell (the "undefined" marker
of a column whose lookback window is not yet filled) is modelled as
`none : Option ℚ`.  The floating-point square root used by
`rolling(20).std()` is abstracted as an explicit function parameter
`q : ℚ → ℚ`: no claim in this development depends on its values, only on
where the standard deviation is defined.
-/

/-- One OHLCV bar, a row of the frame returned by the external price
provider (`yf.download`).  Field names follow the pandas column names. -/
structure PriceBar where
  Open : ℚ
  High : ℚ
  Low : ℚ
  Close : ℚ
  Volume : ℚ
  deriving DecidableEq

/-- A price bar augmented with the derived indicator columns added by
`calculate_indicators`.  `none` models a NaN cell, i.e. the explicit
undefined marker of a rolling column before its window is filled. -/
structure IndBar extends PriceBar where
  SMA15 : Option ℚ
  SMA20 : Option ℚ
  Upper : Option ℚ
  Lower : Option ℚ
  MACD : Option ℚ
  Signal : Option ℚ
  Hist : Option ℚ
  deriving DecidableEq

/-- Default bar, used only as the fallback value of list lookups in
concrete witnesses. -/
def dBar : IndBar :=
  { Open := 0, High := 0, Low := 0, Close := 0, Volume := 0,
    SMA15 := none, SMA20 := none, Upper := none, Lower := none,
    MACD := none, Signal := none, Hist := none }

/-- Model of `series.rolling(window=w).mean()` at position `i`:
the arithmetic mean of the trailing `w` values, NaN (here `none`)
until the window is filled (pandas `min_periods` defaults to `w`). -/
def rollingMean (w : ℕ) (xs : List ℚ) (i : ℕ) : Option ℚ :=
  if w ≤ i + 1 ∧ i < xs.length then
    some (((xs.take (i + 1)).drop (i + 1 - w)).sum / w)
  else none

/-- Model of the variance under `series.rolling(window=w).std()` at
position `i` (pandas default `ddof=1`, the sample variance): defined
exactly where the rolling mean is. -/
def rollingVar (w : ℕ) (xs : List ℚ) (i : ℕ) : Option ℚ :=
  if w ≤ i + 1 ∧ i < xs.length then
    let win := (xs.take (i + 1)).drop (i + 1 - w)
    let m := win.sum / w
    some ((win.map (fun x => (x - m) ^ 2)).sum / ((w - 1 : ℕ) : ℚ))
  else none

/-- The Bollinger upper band `df['SMA20'] + 2 * std`: a pandas NaN in
either operand makes the sum NaN.  `q` abstracts the square root. -/
def bollUpper (q : ℚ → ℚ) (xs : List ℚ) (i : ℕ) : Option ℚ :=
  match rollingMean 20 xs i, (rollingVar 20 xs i).map q with
  | some m, some s => some (m + 2 * s)
  | _, _ => none

/-- The Bollinger lower band `df['SMA20'] - 2 * std`. -/
def bollLower (q : ℚ → ℚ) (xs : List ℚ) (i : ℕ) : Option ℚ :=
  match rollingMean 20 xs i, (rollingVar 20 xs i).map q with
  | some m, some s => some (m - 2 * s)
  | _, _ => none

/-- The recursion of `series.ewm(span, adjust=False).mean()` after the
seed: `y_i = (1-a) * y_(i-1) + a * x_i`. -/
def ewmAux (a : ℚ) (p : ℚ) : List ℚ → List ℚ
  | [] => []
  | x :: xs =>
    let y := (1 - a) * p + a * x
    y :: ewmAux a y xs

/-- Model of `series.ewm(span=n, adjust=False).mean()`: seeded with the
first value, smoothing factor `a = 2 / (span + 1)`, defined at every
position. -/
def ewm (span : ℕ) (xs : List ℚ) : List ℚ :=
  match xs with
  | [] => []
  | x :: rest => x :: ewmAux (2 / ((span : ℚ) + 1)) x rest

/-- The `Close` column of the frame (`df['Close']`). -/
def closesOf (df : List PriceBar) : List ℚ := df.map PriceBar.Close

/-- The MACD column: `exp12 - exp26` elementwise (src/app.py lines
45-47). -/
def macdList (df : List PriceBar) : List ℚ :=
  List.zipWith (fun a b => a - b) (ewm 12 (closesOf df)) (ewm 26 (closesOf df))

/-- The Signal column: EMA9 of the MACD column (src/app.py line 48). -/
def signalList (df : List PriceBar) : List ℚ := ewm 9 (macdList df)

/-- The Hist column: `MACD - Signal` elementwise (src/app.py line 49). -/
def histList (df : List PriceBar) : List ℚ :=
  List.zipWith (fun a b => a - b) (macdList df) (signalList df)

/-- One augmented row of the indicator frame: the original bar plus the
cell of each derived column at that row's position. -/
def indRow (q : ℚ → ℚ) (df : List PriceBar) (p : ℕ × PriceBar) : IndBar :=
  { toPriceBar := p.2
    SMA15 := rollingMean 15 (closesOf df) p.1
    SMA20 := rollingMean 20 (closesOf df) p.1
    Upper := bollUpper q (closesOf df) p.1
    Lower := bollLower q (closesOf df) p.1
    MACD := (macdList df).get? p.1
    Signal := (signalList df).get? p.1
    Hist := (histList df).get? p.1 }

/-- Model of `calculate_indicators` (src/app.py lines 31-51): rejects a
frame shorter than 35 rows, otherwise augments every row with SMA15,
SMA20, the Bollinger bands over the trailing-20 standard deviation, and
MACD (EMA12 - EMA26), Signal (EMA9 of MACD) and Hist (MACD - Signal).
`q` abstracts the floating-point square root inside `std`. -/
def calculate_indicators (q : ℚ → ℚ) (df : List PriceBar) : Option (List IndBar) :=
  if df.length < 35 then none
  else some (df.enum.map (indRow q df))

/-- Comparison `x > y` on float cells: a NaN (undefined) operand makes
the comparison false, as in pandas/numpy. -/
def ogt : Option ℚ → Option ℚ → Bool
  | some x, some y => decide (x > y)
  | _, _ => false

/-- Comparison `x <= y` on float cells: false on a NaN operand. -/
def ole : Option ℚ → Option ℚ → Bool
  | some x, some y => decide (x ≤ y)
  | _, _ => false

/-- Body of `check_strategies` on the reversed frame: the source reads
`df.iloc[-1]`, `df.iloc[-2]`, `df.iloc[-3]`, which are the first three
elements of the reversed row list; with fewer than three rows the
source raises `IndexError` (modelled as `none`). -/
def checkStrategiesRev : List IndBar → List String → Option (List String)
  | last :: prev :: prev2 :: _, strategies =>
    let r0 : List String := []
    let r1 :=
      if "S8" ∈ strategies then
        if ogt last.MACD prev.MACD && ogt prev.MACD prev2.MACD
            && ogt last.MACD last.Signal && ogt last.Hist (some 0) then
          r0 ++ ["MACD 緩步爬升"]
        else r0
      else r0
    let r2 :=
      if "S3" ∈ strategies then
        if ogt (some last.Close) last.Upper && ole (some prev.Close) prev.Upper then
          r1 ++ ["突破布林上軌"]
        else r1
      else r1
    some r2
  | _, _ => none

/-- Model of `check_strategies` (src/app.py lines 54-74): evaluates the
requested strategies on the last three rows, appending the label of each
matching strategy; raises (`none`) when the frame has fewer than three
rows. -/
def check_strategies (df : List IndBar) (strategies : List String) : Option (List String) :=
  checkStrategiesRev df.reverse strategies

/-- The price-range test of `process_stock`:
`min_p <= current_price <= max_p` (src/app.py line 85). -/
def priceInRange (min_p max_p p : ℚ) : Bool :=
  decide (min_p ≤ p ∧ p ≤ max_p)

/-- Outcome of one symbol's try-block environment: either some exception
is raised inside the body (a fetch/network error or an unexpected
computational error — all are caught by the bare `except`), or the
download returns a frame and the body runs on it. -/
inductive TaskOutcome where
  | raises
  | ok (data : List PriceBar)
  deriving DecidableEq

/-- One scheduled symbol task: the raw `stock_str` universe entry plus
the outcome of its external interactions. -/
structure SymbolTask where
  sym : String
  outcome : TaskOutcome
  deriving DecidableEq

/-- The record returned by `process_stock` for a qualifying symbol
(src/app.py line 91). -/
structure MatchRecord where
  symbol : String
  df : List IndBar
  matched : List String
  price : ℚ
  deriving DecidableEq

/-- Model of `process_stock` (src/app.py lines 77-94): the whole body is
wrapped in `try ... except: return None`, so a raised exception yields
`None`; an empty or short frame yields `None`; a last close outside
`[min_p, max_p]` yields `None`; otherwise indicators are computed and
the strategies evaluated, and a record is returned only when at least
one strategy matched. -/
def process_stock (q : ℚ → ℚ) (t : SymbolTask) (strategies : List String)
    (min_p max_p : ℚ) : Option MatchRecord :=
  match t.outcome with
  | TaskOutcome.raises => none
  | TaskOutcome.ok data =>
    if data.length = 0 ∨ data.length < 35 then none
    else
      match data.getLast? with
      | none => none
      | some lastBar =>
        let current_price := lastBar.Close
        if ! priceInRange min_p max_p current_price then none
        else
          match calculate_indicators q data with
          | none => none
          | some df =>
            match check_strategies df strategies with
            | none => none
            | some ms =>
              if ms ≠ [] then
                some { symbol := t.sym, df := df, matched := ms, price := current_price }
              else none

/-- Aggregation state of the scan loop: the collected match records and
the sequence of progress counts reported so far. -/
structure ScanState where
  records : List MatchRecord
  trace : List ℕ
  deriving DecidableEq

/-- The `for i, future in enumerate(futures)` loop body (src/app.py
lines 123-127): collect the task result when it is a record, then report
progress `i + 1`. -/
def scanGo (q : ℚ → ℚ) (strategies : List String) (min_p max_p : ℚ)
    (done : ℕ) : List SymbolTask → ScanState
  | [] => { records := [], trace := [] }
  | t :: ts =>
    let res := process_stock q t strategies min_p max_p
    let rest := scanGo q strategies min_p max_p (done + 1) ts
    { records := res.toList ++ rest.records, trace := (done + 1) :: rest.trace }

/-- Model of the scan started by the button handler (src/app.py lines
121-127): one task per universe symbol, results and progress collected
in iteration order. -/
def run_scan (q : ℚ → ℚ) (strategies : List String) (min_p max_p : ℚ)
    (tasks : List SymbolTask) : ScanState :=
  scanGo q strategies min_p max_p 0 tasks

-- Concrete fixtures used by witnesses and counterexamples.

/-- Stub square root, usable wherever a claim does not depend on the
numeric value of the standard deviation. -/
def sqrtZero : ℚ → ℚ := fun _ => 0

/-- A constant bar. -/
def mkBar (c : ℚ) : PriceBar :=
  { Open := c, High := c, Low := c, Close := c, Volume := 1000 }

/-- A 35-bar constant price series, long enough for the indicators. -/
def wdf : List PriceBar := List.replicate 35 (mkBar 10)

/-- The indicator frame computed from `wdf`. -/
def wout : List IndBar := (calculate_indicators sqrtZero wdf).getD []

/-- Hand-built indicator bar for strategy-evaluator inputs. -/
def iBar (c : ℚ) (m sg h u : Option ℚ) : IndBar :=
  { Open := c, High := c, Low := c, Close := c, Volume := 0,
    SMA15 := none, SMA20 := none, Upper := u, Lower := none,
    MACD := m, Signal := sg, Hist := h }

/-- A 3-bar indicator series on which S8 matches: MACD strictly rises
3 > 2 > 1, MACD 3 > Signal 1, Hist 2 > 0. -/
def cdf3 : List IndBar :=
  [iBar 1 (some 1) (some 1) (some 1) none,
   iBar 2 (some 2) (some 1) (some 1) none,
   iBar 3 (some 3) (some 1) (some 2) none]

/-- A 3-bar indicator series with a fresh Bollinger breach on the last
bar: close 8 > upper 7, previous close 5 <= previous upper 6. -/
def cdf4 : List IndBar :=
  [iBar 1 none none none none,
   iBar 5 none none none (some 6),
   iBar 8 none none none (some 7)]

/-- A 2-bar indicator series with the same fresh breach. -/
def cdf2 : List IndBar :=
  [iBar 5 none none none (some 6),
   iBar 8 none none none (some 7)]

/-- A 3-bar indicator series in which every derived cell is undefined. -/
def cdfU : List IndBar := List.replicate 3 (iBar 1 none none none none)

/-- A bar counts as fully defined when all seven derived cells are
present. -/
def barDefined (b : IndBar) : Bool :=
  b.SMA15.isSome && b.SMA20.isSome && b.Upper.isSome && b.Lower.isSome
    && b.MACD.isSome && b.Signal.isSome && b.Hist.isSome

-- General-purpose helper lemmas.

/-- A list lookup is defined exactly below the length. -/
theorem get?_isSome_iff {α : Type} (l : List α) (i : ℕ) :
    (l.get? i).isSome = true ↔ i < l.length := by
  constructor
  · intro h
    rcases hg : l.get? i with _ | a
    · rw [hg] at h; cases h
    · obtain ⟨hi, -⟩ := List.get?_eq_some.mp hg
      exact hi
  · intro h
    rcases hg : l.get? i with _ | a
    · have := List.get?_eq_none.mp hg; omega
    · simp [hg]

/-- An in-range lookup returns its `getD` value. -/
theorem get?_eq_some_getD {α : Type} (l : List α) (i : ℕ) (d : α)
    (h : i < l.length) : l.get? i = some (l.getD i d) := by
  rcases hg : l.get? i with _ | a
  · have := List.get?_eq_none.mp hg; omega
  · rw [List.getD_eq_get?, hg]; rfl

/-- Pointwise lookup of a zipWith when both inputs are defined. -/
theorem zipWith_get?_some {α β γ : Type} (f : α → β → γ) :
    ∀ (as : List α) (bs : List β) (i : ℕ) (a : α) (b : β),
      as.get? i = some a → bs.get? i = some b →
      (List.zipWith f as bs).get? i = some (f a b) := by
  intro as
  induction as with
  | nil => intro bs i a b ha; cases ha
  | cons x xs ih =>
    intro bs i a b ha hb
    cases bs with
    | nil => cases hb
    | cons y ys =>
      cases i with
      | zero =>
        cases ha; cases hb; rfl
      | succ j =>
        exact ih ys j a b ha hb

-- Lemmas about the embedded columns.

/-- The tail recursion of the EMA preserves length. -/
theorem ewmAux_length (a : ℚ) :
    ∀ (xs : List ℚ) (p : ℚ), (ewmAux a p xs).length = xs.length := by
  intro xs
  induction xs with
  | nil => intro p; rfl
  | cons x xs ih => intro p; simp [ewmAux, ih]

/-- An EMA column has the length of its input column. -/
theorem ewm_length (n : ℕ) (xs : List ℚ) : (ewm n xs).length = xs.length := by
  cases xs with
  | nil => rfl
  | cons x rest => simp [ewm, ewmAux_length]

/-- The MACD column is bar-aligned with the frame. -/
theorem macdList_length (df : List PriceBar) : (macdList df).length = df.length := by
  simp [macdList, closesOf, List.length_zipWith, ewm_length]

/-- The Signal column is bar-aligned with the frame. -/
theorem signalList_length (df : List PriceBar) : (signalList df).length = df.length := by
  simp [signalList, ewm_length, macdList_length]

/-- The Hist column is bar-aligned with the frame. -/
theorem histList_length (df : List PriceBar) : (histList df).length = df.length := by
  simp [histList, List.length_zipWith, macdList_length, signalList_length]

/-- A rolling mean cell is defined exactly once its window has filled. -/
theorem rollingMean_isSome (w : ℕ) (xs : List ℚ) (i : ℕ) :
    (rollingMean w xs i).isSome = true ↔ (w ≤ i + 1 ∧ i < xs.length) := by
  unfold rollingMean
  split <;> simp_all

/-- A rolling variance cell is defined exactly once its window has
filled. -/
theorem rollingVar_isSome (w : ℕ) (xs : List ℚ) (i : ℕ) :
    (rollingVar w xs i).isSome = true ↔ (w ≤ i + 1 ∧ i < xs.length) := by
  unfold rollingVar
  split <;> simp_all

/-- The upper band cell is defined exactly where its 20-bar window has
filled. -/
theorem bollUpper_isSome (q : ℚ → ℚ) (xs : List ℚ) (i : ℕ) :
    (bollUpper q xs i).isSome = true ↔ (20 ≤ i + 1 ∧ i < xs.length) := by
  unfold bollUpper
  rcases hg1 : rollingMean 20 xs i with _ | m
  · have hm : ¬ (20 ≤ i + 1 ∧ i < xs.length) := by
      intro hc
      have := (rollingMean_isSome 20 xs i).mpr hc
      rw [hg1] at this; cases this
    rcases hg2 : rollingVar 20 xs i with _ | v <;> simp <;> omega
  · have hm : (20 ≤ i + 1 ∧ i < xs.length) :=
      (rollingMean_isSome 20 xs i).mp (by rw [hg1]; rfl)
    rcases hg2 : rollingVar 20 xs i with _ | v
    · have := (rollingVar_isSome 20 xs i).mpr hm
      rw [hg2] at this; cases this
    · simp [hm]

/-- The lower band cell is defined exactly where its 20-bar window has
filled. -/
theorem bollLower_isSome (q : ℚ → ℚ) (xs : List ℚ) (i : ℕ) :
    (bollLower q xs i).isSome = true ↔ (20 ≤ i + 1 ∧ i < xs.length) := by
  unfold bollLower
  rcases hg1 : rollingMean 20 xs i with _ | m
  · have hm : ¬ (20 ≤ i + 1 ∧ i < xs.length) := by
      intro hc
      have := (rollingMean_isSome 20 xs i).mpr hc
      rw [hg1] at this; cases this
    rcases hg2 : rollingVar 20 xs i with _ | v <;> simp <;> omega
  · have hm : (20 ≤ i + 1 ∧ i < xs.length) :=
      (rollingMean_isSome 20 xs i).mp (by rw [hg1]; rfl)
    rcases hg2 : rollingVar 20 xs i with _ | v
    · have := (rollingVar_isSome 20 xs i).mpr hm
      rw [hg2] at this; cases this
    · simp [hm]

/-- On a long-enough frame the indicator computation succeeds, and its
value is its own `getD`. -/
theorem calculate_indicators_some (q : ℚ → ℚ) (df : List PriceBar)
    (h : 35 ≤ df.length) :
    calculate_indicators q df = some ((calculate_indicators q df).getD []) := by
  unfold calculate_indicators
  rw [if_neg (by omega)]
  rfl

/-- The indicator frame is bar-aligned with the input frame. -/
theorem calculate_indicators_length (q : ℚ → ℚ) (df : List PriceBar)
    (out : List IndBar) (hout : calculate_indicators q df = some out) :
    out.length = df.length := by
  unfold calculate_indicators at hout
  split at hout
  · cases hout
  · injection hout with h
    subst h
    simp [List.enum_length]

/-- Every row of the indicator frame is `indRow` applied to the input
bar at the same position. -/
theorem calculate_indicators_get? (q : ℚ → ℚ) (df : List PriceBar)
    (out : List IndBar) (hout : calculate_indicators q df = some out)
    (i : ℕ) (b : IndBar) (hb : out.get? i = some b) :
    ∃ pb : PriceBar, df.get? i = some pb ∧ b = indRow q df (i, pb) := by
  unfold calculate_indicators at hout
  split at hout
  · cases hout
  · injection hout with h
    subst h
    rw [List.get?_map, List.get?_enum] at hb
    rcases hdf : df.get? i with _ | pb
    · rw [hdf] at hb; cases hb
    · rw [hdf] at hb
      simp only [Option.map_some'] at hb
      exact ⟨pb, rfl, (Option.some.inj hb).symm⟩

-- Lemmas about the scan loop and the per-symbol task.

/-- The records collected by the loop are exactly the non-`None` task
results, in iteration order, whatever the starting progress count. -/
theorem scanGo_records (q : ℚ → ℚ) (strategies : List String) (mn mx : ℚ) :
    ∀ (ts : List SymbolTask) (d : ℕ),
      (scanGo q strategies mn mx d ts).records
        = ts.filterMap (fun t => process_stock q t strategies mn mx) := by
  intro ts
  induction ts with
  | nil => intro d; rfl
  | cons t ts ih =>
    intro d
    simp only [scanGo, List.filterMap_cons]
    rcases h : process_stock q t strategies mn mx with _ | r <;> simp [h, ih]

/-- The loop reports the progress counts `d+1, d+2, ...`, one per task. -/
theorem scanGo_trace (q : ℚ → ℚ) (strategies : List String) (mn mx : ℚ) :
    ∀ (ts : List SymbolTask) (d : ℕ),
      (scanGo q strategies mn mx d ts).trace = List.range' (d + 1) ts.length := by
  intro ts
  induction ts with
  | nil => intro d; rfl
  | cons t ts ih =>
    intro d
    simp only [scanGo, List.length_cons, List.range'_succ, ih]

/-- With no requested strategies the evaluator never matches: it raises
on a short frame and returns the empty match list otherwise. -/
theorem checkStrategiesRev_nil (l : List IndBar) :
    checkStrategiesRev l [] = none ∨ checkStrategiesRev l [] = some [] := by
  rcases l with _ | ⟨a, _ | ⟨b, _ | ⟨c, r⟩⟩⟩
  · exact Or.inl rfl
  · exact Or.inl rfl
  · exact Or.inl rfl
  · right
    simp [checkStrategiesRev]

/-- A task evaluated against an empty strategy set is always excluded. -/
theorem process_stock_nil_strategies (q : ℚ → ℚ) (t : SymbolTask) (mn mx : ℚ) :
    process_stock q t [] mn mx = none := by
  obtain ⟨s, o⟩ := t
  cases o with
  | raises => rfl
  | ok data =>
    by_cases h1 : (data.length = 0 ∨ data.length < 35)
    · simp [process_stock]
      intro h2 h3
      exfalso
      rcases h1 with h | h <;> omega
    · rcases hgl : data.getLast? with _ | lb
      · simp [process_stock, h1, hgl]
      · cases hb : priceInRange mn mx lb.Close
        · simp [process_stock, h1, hgl, hb]
        · rcases hci : calculate_indicators q data with _ | dfI
          · simp [process_stock, h1, hgl, hb, hci]
          · rcases checkStrategiesRev_nil dfI.reverse with hcs | hcs <;>
              simp [process_stock, h1, hgl, hb, hci, check_strategies, hcs]

/-- A task evaluated against an inverted price range is always
excluded: no last close can satisfy `min_p <= p <= max_p`. -/
theorem process_stock_inverted (q : ℚ → ℚ) (t : SymbolTask)
    (strategies : List String) (mn mx : ℚ) (h : mx < mn) :
    process_stock q t strategies mn mx = none := by
  obtain ⟨s, o⟩ := t
  cases o with
  | raises => rfl
  | ok data =>
    by_cases h1 : (data.length = 0 ∨ data.length < 35)
    · simp [process_stock]
      intro h2 h3
      exfalso
      rcases h1 with h | h <;> omega
    · rcases hgl : data.getLast? with _ | lb
      · simp [process_stock, h1, hgl]
      · have hpr : priceInRange mn mx lb.Close = false := by
          simp only [priceInRange, decide_eq_false_iff_not]
          rintro ⟨h2, h3⟩
          linarith
        simp [process_stock, h1, hgl, hpr]

-- Claim C1.

/-- C1: over any universe subset, the scan completes (it is a total
function of the task list): every per-symbol failure — a raised
exception, empty or short data, or any later failure — only excludes
that symbol (the records are exactly the `filterMap` of the per-symbol
results), the progress counts are `1, 2, ..., N`, advancing exactly once
per symbol regardless of outcome, and the final processed count equals
the universe size `N`; a task whose body raises always yields `None`
rather than propagating. -/
theorem scan_isolation_progress (q : ℚ → ℚ) (strategies : List String)
    (mn mx : ℚ) (tasks : List SymbolTask) :
    (run_scan q strategies mn mx tasks).records
        = tasks.filterMap (fun t => process_stock q t strategies mn mx) ∧
    (run_scan q strategies mn mx tasks).trace = List.range' 1 tasks.length ∧
    (run_scan q strategies mn mx tasks).trace.length = tasks.length ∧
    (∀ s : String, process_stock q ⟨s, TaskOutcome.raises⟩ strategies mn mx = none) := by
  refine ⟨scanGo_records q strategies mn mx tasks 0, ?_, ?_, fun s => rfl⟩
  · exact scanGo_trace q strategies mn mx tasks 0
  · rw [run_scan, scanGo_trace q strategies mn mx tasks 0, List.length_range']

-- Claim C5.

/-- C5: a price series shorter than 35 bars is rejected outright:
`calculate_indicators` returns `None` and computes no indicator
values. -/
theorem short_series_rejected (q : ℚ → ℚ) (df : List PriceBar)
    (h : df.length < 35) : calculate_indicators q df = none := by
  unfold calculate_indicators
  rw [if_pos h]

/-- Witness for C5 at the empty series. -/
theorem short_series_rejected_witness : calculate_indicators sqrtZero [] = none :=
  short_series_rejected sqrtZero [] (by decide)

-- Claim C6.

/-- C6 (amended): the strategy evaluator fails (raises `IndexError`,
modelled as `none`) exactly when the series has fewer than 3 bars,
regardless of whether the bars' indicator cells are defined. -/
theorem insufficient_history_iff (df : List IndBar) (strategies : List String) :
    check_strategies df strategies = none ↔ df.length < 3 := by
  unfold check_strategies
  have hl : df.reverse.length = df.length := List.length_reverse df
  rcases hr : df.reverse with _ | ⟨a, _ | ⟨b, _ | ⟨c, r⟩⟩⟩ <;>
    rw [hr] at hl <;> simp [checkStrategiesRev] <;>
    simp at hl <;> omega

/-- Counterexample for C6 as stated: a 3-bar series with zero fully
defined bars (every derived cell undefined) does not fail — the
evaluator returns the empty match set instead of raising. -/
theorem undefined_bars_still_evaluated :
    (cdfU.filter barDefined).length = 0 ∧
    check_strategies cdfU ["S8", "S3"] = some [] := by decide

-- Claim C7.

/-- C7 (amended): no validation of the scan request exists.  A scan
with an empty strategy set or an inverted price range (max < min) is
not rejected before dispatch: it starts, processes every one of the N
symbols, and completes with zero match records. -/
theorem malformed_request_scans_all (q : ℚ → ℚ) (strategies : List String)
    (mn mx : ℚ) (tasks : List SymbolTask)
    (h : strategies = [] ∨ mx < mn) :
    (run_scan q strategies mn mx tasks).records = [] ∧
    (run_scan q strategies mn mx tasks).trace.length = tasks.length := by
  have hnone : ∀ t : SymbolTask, process_stock q t strategies mn mx = none := by
    rcases h with rfl | hinv
    · exact fun t => process_stock_nil_strategies q t mn mx
    · exact fun t => process_stock_inverted q t strategies mn mx hinv
  constructor
  · rw [run_scan, scanGo_records]
    exact List.filterMap_eq_nil.mpr (fun t _ => hnone t)
  · rw [run_scan, scanGo_trace, List.length_range']

/-- Witness for C7 (amended) at a one-symbol universe and an empty
strategy set. -/
theorem malformed_request_scans_all_witness :
    (run_scan sqrtZero [] 10 500 [⟨"2330 台積電", TaskOutcome.raises⟩]).records = [] ∧
    (run_scan sqrtZero [] 10 500 [⟨"2330 台積電", TaskOutcome.raises⟩]).trace.length = 1 :=
  malformed_request_scans_all sqrtZero [] 10 500 [⟨"2330 台積電", TaskOutcome.raises⟩]
    (Or.inl rfl)

/-- Counterexample for C7 as stated: with an empty strategy set the
scan is not stopped before dispatch — it processes its one symbol and
reports progress 1, so the scan did start. -/
theorem empty_strategy_scan_starts :
    (run_scan sqrtZero [] 10 500 [⟨"X", TaskOutcome.raises⟩]).trace = [1] ∧
    (run_scan sqrtZero [] 10 500 [⟨"X", TaskOutcome.raises⟩]).trace ≠ [] := by
  decide

-- Claim C8.

/-- C8: the price filter of `process_stock` has inclusive bounds — a
last close equal to either end of a well-formed range passes the
filter. -/
theorem price_bounds_inclusive (min_p max_p p : ℚ) (hle : min_p ≤ max_p)
    (hp : p = min_p ∨ p = max_p) : priceInRange min_p max_p p = true := by
  rcases hp with rfl | rfl <;> simp [priceInRange, hle]

/-- Witness for C8 at the default range 10..500 and a close of exactly
10. -/
theorem price_bounds_inclusive_witness : priceInRange 10 500 10 = true :=
  price_bounds_inclusive 10 500 10 (by decide) (Or.inl rfl)

-- Facts about the concrete 35-bar fixture.

/-- The fixture frame has exactly 35 bars. -/
theorem wdf_length : wdf.length = 35 := by simp [wdf]

/-- The indicator computation succeeds on the fixture frame. -/
theorem calc_wdf : calculate_indicators sqrtZero wdf = some wout :=
  calculate_indicators_some sqrtZero wdf (by simp [wdf])

/-- The fixture indicator frame has exactly 35 rows. -/
theorem wout_length : wout.length = 35 := by
  rw [calculate_indicators_length sqrtZero wdf wout calc_wdf, wdf_length]

-- Claim C2.

/-- C2 (amended): on any accepted series, every derived field is
defined at every bar from index 34 onward; before that, each field is
undefined exactly while its own lookback window is unfilled — SMA15 is
defined from index 14, SMA20 and both Bollinger bands from index 19,
and MACD, Signal and Histogram at every index (the `adjust=False` EMA
is seeded from the first bar). -/
theorem indicator_definedness (q : ℚ → ℚ) (df : List PriceBar) (out : List IndBar)
    (hout : calculate_indicators q df = some out) (i : ℕ) (b : IndBar)
    (hb : out.get? i = some b) :
    (b.SMA15.isSome = true ↔ 14 ≤ i) ∧
    (b.SMA20.isSome = true ↔ 19 ≤ i) ∧
    (b.Upper.isSome = true ↔ 19 ≤ i) ∧
    (b.Lower.isSome = true ↔ 19 ≤ i) ∧
    b.MACD.isSome = true ∧ b.Signal.isSome = true ∧ b.Hist.isSome = true ∧
    (34 ≤ i → b.SMA15.isSome = true ∧ b.SMA20.isSome = true ∧
      b.Upper.isSome = true ∧ b.Lower.isSome = true ∧
      b.MACD.isSome = true ∧ b.Signal.isSome = true ∧ b.Hist.isSome = true) := by
  obtain ⟨pb, hpb, rfl⟩ := calculate_indicators_get? q df out hout i b hb
  have hi : i < df.length := (get?_isSome_iff df i).mp (by rw [hpb]; rfl)
  have hcl : (closesOf df).length = df.length := by simp [closesOf]
  have c15 : (indRow q df (i, pb)).SMA15.isSome = true ↔ 14 ≤ i := by
    show (rollingMean 15 (closesOf df) i).isSome = true ↔ 14 ≤ i
    rw [rollingMean_isSome, hcl]
    omega
  have c20 : (indRow q df (i, pb)).SMA20.isSome = true ↔ 19 ≤ i := by
    show (rollingMean 20 (closesOf df) i).isSome = true ↔ 19 ≤ i
    rw [rollingMean_isSome, hcl]
    omega
  have cup : (indRow q df (i, pb)).Upper.isSome = true ↔ 19 ≤ i := by
    show (bollUpper q (closesOf df) i).isSome = true ↔ 19 ≤ i
    rw [bollUpper_isSome, hcl]
    omega
  have clo : (indRow q df (i, pb)).Lower.isSome = true ↔ 19 ≤ i := by
    show (bollLower q (closesOf df) i).isSome = true ↔ 19 ≤ i
    rw [bollLower_isSome, hcl]
    omega
  have cma : (indRow q df (i, pb)).MACD.isSome = true := by
    show ((macdList df).get? i).isSome = true
    rw [get?_isSome_iff, macdList_length]
    exact hi
  have csi : (indRow q df (i, pb)).Signal.isSome = true := by
    show ((signalList df).get? i).isSome = true
    rw [get?_isSome_iff, signalList_length]
    exact hi
  have chi : (indRow q df (i, pb)).Hist.isSome = true := by
    show ((histList df).get? i).isSome = true
    rw [get?_isSome_iff, histList_length]
    exact hi
  exact ⟨c15, c20, cup, clo, cma, csi, chi, fun h34 =>
    ⟨c15.mpr (by omega), c20.mpr (by omega), cup.mpr (by omega),
     clo.mpr (by omega), cma, csi, chi⟩⟩

/-- Witness for C2 (amended) at row 34 of the 35-bar fixture. -/
theorem indicator_definedness_witness :
    (((wout.getD 34 dBar).SMA15.isSome = true ↔ 14 ≤ 34) ∧
    ((wout.getD 34 dBar).SMA20.isSome = true ↔ 19 ≤ 34) ∧
    ((wout.getD 34 dBar).Upper.isSome = true ↔ 19 ≤ 34) ∧
    ((wout.getD 34 dBar).Lower.isSome = true ↔ 19 ≤ 34) ∧
    (wout.getD 34 dBar).MACD.isSome = true ∧
    (wout.getD 34 dBar).Signal.isSome = true ∧
    (wout.getD 34 dBar).Hist.isSome = true ∧
    (34 ≤ 34 → (wout.getD 34 dBar).SMA15.isSome = true ∧
      (wout.getD 34 dBar).SMA20.isSome = true ∧
      (wout.getD 34 dBar).Upper.isSome = true ∧
      (wout.getD 34 dBar).Lower.isSome = true ∧
      (wout.getD 34 dBar).MACD.isSome = true ∧
      (wout.getD 34 dBar).Signal.isSome = true ∧
      (wout.getD 34 dBar).Hist.isSome = true)) :=
  indicator_definedness sqrtZero wdf wout calc_wdf 34 (wout.getD 34 dBar)
    (get?_eq_some_getD wout 34 dBar (by rw [wout_length]; omega))

/-- Counterexample for C2 as stated: on the 35-bar fixture, bars before
index 34 do not all hold undefined markers — SMA15 is already defined
at index 14 and MACD is defined at index 0. -/
theorem sma15_defined_before_34 :
    (wout.getD 14 dBar).SMA15.isSome = true ∧
    (wout.getD 0 dBar).MACD.isSome = true := by decide

-- Claim C9.

/-- C9: wherever the MACD and Signal cells are both defined, the
histogram cell is exactly their difference. -/
theorem hist_eq_macd_sub_signal (q : ℚ → ℚ) (df : List PriceBar)
    (out : List IndBar) (hout : calculate_indicators q df = some out)
    (i : ℕ) (b : IndBar) (hb : out.get? i = some b) (m s : ℚ)
    (hm : b.MACD = some m) (hs : b.Signal = some s) :
    b.Hist = some (m - s) := by
  obtain ⟨pb, hpb, rfl⟩ := calculate_indicators_get? q df out hout i b hb
  have hm' : (macdList df).get? i = some m := hm
  have hs' : (signalList df).get? i = some s := hs
  show (histList df).get? i = some (m - s)
  unfold histList
  exact zipWith_get?_some (fun a b => a - b) (macdList df) (signalList df) i m s hm' hs'

/-- Witness for C9 at row 0 of the 35-bar fixture (both EMAs are seeded
with the first close, so MACD and Signal are both `10 - 10` there). -/
theorem hist_eq_macd_sub_signal_witness :
    (wout.getD 0 dBar).Hist = some (((10 : ℚ) - 10) - ((10 : ℚ) - 10)) :=
  hist_eq_macd_sub_signal sqrtZero wdf wout calc_wdf 0 (wout.getD 0 dBar)
    (get?_eq_some_getD wout 0 dBar (by rw [wout_length]; omega))
    ((10 : ℚ) - 10) ((10 : ℚ) - 10) rfl rfl

-- Claim C10.

/-- C10: the indicator computation only adds derived columns — mapping
every augmented row back to its underlying price bar recovers the input
frame exactly, so Open, High, Low, Close and Volume are unchanged at
every bar. -/
theorem indicators_preserve_prices (q : ℚ → ℚ) (df : List PriceBar)
    (out : List IndBar) (hout : calculate_indicators q df = some out) :
    out.map IndBar.toPriceBar = df := by
  unfold calculate_indicators at hout
  split at hout
  · cases hout
  · injection hout with h
    subst h
    rw [List.map_map]
    have hcomp : (IndBar.toPriceBar ∘ indRow q df) = Prod.snd := by
      funext p
      rfl
    rw [hcomp, List.enum_map_snd]

/-- Witness for C10 at the 35-bar fixture. -/
theorem indicators_preserve_prices_witness : wout.map IndBar.toPriceBar = wdf :=
  indicators_preserve_prices sqrtZero wdf wout calc_wdf

-- Claim C3.

/-- C3: with at least three trailing bars whose MACD, Signal and
Histogram cells are defined, S8 is matched iff MACD rose strictly
across the last three bars, MACD exceeds Signal at the last bar, and
the histogram is positive at the last bar; in particular a
non-positive histogram never matches, whatever the MACD slope. -/
theorem s8_matches_iff (df : List IndBar) (strategies : List String)
    (last prev prev2 : IndBar) (rest : List IndBar)
    (hrev : df.reverse = last :: prev :: prev2 :: rest)
    (hS8 : "S8" ∈ strategies)
    (m0 m1 m2 sg h0 : ℚ)
    (hm0 : last.MACD = some m0) (hm1 : prev.MACD = some m1)
    (hm2 : prev2.MACD = some m2) (hsg : last.Signal = some sg)
    (hh0 : last.Hist = some h0)
    (res : List String) (hres : check_strategies df strategies = some res) :
    ("MACD 緩步爬升" ∈ res ↔ (m0 > m1 ∧ m1 > m2 ∧ m0 > sg ∧ h0 > 0)) ∧
    (h0 ≤ 0 → "MACD 緩步爬升" ∉ res) := by
  unfold check_strategies at hres
  rw [hrev] at hres
  simp only [checkStrategiesRev] at hres
  rw [hm0, hm1, hm2, hsg, hh0] at hres
  have hres' := Option.some.inj hres
  subst hres'
  have hne : ("MACD 緩步爬升" : String) ≠ "突破布林上軌" := by decide
  have hkey : "MACD 緩步爬升" ∈
      (if "S3" ∈ strategies then
        if (ogt (some last.Close) last.Upper && ole (some prev.Close) prev.Upper) = true then
          (if "S8" ∈ strategies then
            if (ogt (some m0) (some m1) && ogt (some m1) (some m2)
                && ogt (some m0) (some sg) && ogt (some h0) (some 0)) = true then
              ([] : List String) ++ ["MACD 緩步爬升"]
            else []
          else []) ++ ["突破布林上軌"]
        else
          if "S8" ∈ strategies then
            if (ogt (some m0) (some m1) && ogt (some m1) (some m2)
                && ogt (some m0) (some sg) && ogt (some h0) (some 0)) = true then
              ([] : List String) ++ ["MACD 緩步爬升"]
            else []
          else []
      else
        if "S8" ∈ strategies then
          if (ogt (some m0) (some m1) && ogt (some m1) (some m2)
              && ogt (some m0) (some sg) && ogt (some h0) (some 0)) = true then
            ([] : List String) ++ ["MACD 緩步爬升"]
          else []
        else []) ↔ (m0 > m1 ∧ m1 > m2 ∧ m0 > sg ∧ h0 > 0) := by
    simp only [ogt]
    split_ifs <;>
      simp_all [List.mem_append, Bool.and_eq_true, decide_eq_true_eq]
  exact ⟨hkey, fun hle hmem => absurd ((hkey.mp hmem).2.2.2) (not_lt.mpr hle)⟩

/-- Witness for C3 at a 3-bar series with MACD 1, 2, 3, Signal 1 and
Histogram 2 on the last bar, with only S8 requested. -/
theorem s8_matches_iff_witness :
    ("MACD 緩步爬升" ∈ (check_strategies cdf3 ["S8"]).getD [] ↔
      ((3 : ℚ) > 2 ∧ (2 : ℚ) > 1 ∧ (3 : ℚ) > 1 ∧ (2 : ℚ) > 0)) ∧
    ((2 : ℚ) ≤ 0 → "MACD 緩步爬升" ∉ (check_strategies cdf3 ["S8"]).getD []) :=
  s8_matches_iff cdf3 ["S8"]
    (iBar 3 (some 3) (some 1) (some 2) none)
    (iBar 2 (some 2) (some 1) (some 1) none)
    (iBar 1 (some 1) (some 1) (some 1) none) []
    (by decide) (by decide) 3 2 1 1 2 rfl rfl rfl rfl rfl
    ((check_strategies cdf3 ["S8"]).getD []) (by decide)

-- Claim C4.

/-- C4 (amended): with at least three trailing bars (the evaluator
reads three bars back and raises otherwise) whose Bollinger upper band
is defined on the last two, S3 is matched iff the last close exceeds
the upper band while the previous close did not — so a sustained stay
above the band matches only on the transition bar, never on a later
bar. -/
theorem s3_fresh_breakout_iff (df : List IndBar) (strategies : List String)
    (last prev prev2 : IndBar) (rest : List IndBar)
    (hrev : df.reverse = last :: prev :: prev2 :: rest)
    (hS3 : "S3" ∈ strategies)
    (u0 u1 : ℚ) (hu0 : last.Upper = some u0) (hu1 : prev.Upper = some u1)
    (res : List String) (hres : check_strategies df strategies = some res) :
    ("突破布林上軌" ∈ res ↔ (last.Close > u0 ∧ prev.Close ≤ u1)) ∧
    (prev.Close > u1 → "突破布林上軌" ∉ res) := by
  unfold check_strategies at hres
  rw [hrev] at hres
  simp only [checkStrategiesRev] at hres
  rw [hu0, hu1] at hres
  have hres' := Option.some.inj hres
  subst hres'
  have hne : ("突破布林上軌" : String) ≠ "MACD 緩步爬升" := by decide
  have hkey : "突破布林上軌" ∈
      (if "S3" ∈ strategies then
        if (ogt (some last.Close) (some u0) && ole (some prev.Close) (some u1)) = true then
          (if "S8" ∈ strategies then
            if (ogt last.MACD prev.MACD && ogt prev.MACD prev2.MACD
                && ogt last.MACD last.Signal && ogt last.Hist (some 0)) = true then
              ([] : List String) ++ ["MACD 緩步爬升"]
            else []
          else []) ++ ["突破布林上軌"]
        else
          if "S8" ∈ strategies then
            if (ogt last.MACD prev.MACD && ogt prev.MACD prev2.MACD
                && ogt last.MACD last.Signal && ogt last.Hist (some 0)) = true then
              ([] : List String) ++ ["MACD 緩步爬升"]
            else []
          else []
      else
        if "S8" ∈ strategies then
          if (ogt last.MACD prev.MACD && ogt prev.MACD prev2.MACD
              && ogt last.MACD last.Signal && ogt last.Hist (some 0)) = true then
            ([] : List String) ++ ["MACD 緩步爬升"]
          else []
        else []) ↔ (last.Close > u0 ∧ prev.Close ≤ u1) := by
    simp only [ogt, ole]
    split_ifs <;>
      simp_all [List.mem_append, Bool.and_eq_true, decide_eq_true_eq]
  exact ⟨hkey, fun hgt hmem => absurd ((hkey.mp hmem).2) (not_le.mpr hgt)⟩

/-- Witness for C4 (amended) at a 3-bar series whose last close 8
breaches the band 7 while the previous close 5 sat below its band 6,
with only S3 requested. -/
theorem s3_fresh_breakout_iff_witness :
    ("突破布林上軌" ∈ (check_strategies cdf4 ["S3"]).getD [] ↔
      ((iBar 8 none none none (some 7)).Close > 7 ∧
        (iBar 5 none none none (some 6)).Close ≤ 6)) ∧
    ((iBar 5 none none none (some 6)).Close > 6 →
      "突破布林上軌" ∉ (check_strategies cdf4 ["S3"]).getD []) :=
  s3_fresh_breakout_iff cdf4 ["S3"]
    (iBar 8 none none none (some 7))
    (iBar 5 none none none (some 6))
    (iBar 1 none none none none) []
    (by decide) (by decide) 7 6 rfl rfl
    ((check_strategies cdf4 ["S3"]).getD []) (by decide)

/-- Counterexample for C4 as stated: a 2-bar indicator series with the
upper band defined on both bars and a genuine fresh breach (8 > 7 on
the last bar, 5 <= 6 on the previous) yields no matched set at all —
the evaluator reads three bars back and raises — so S3 is not in the
matched set although the breach condition holds. -/
theorem s3_two_bar_series_fails :
    check_strategies cdf2 ["S3"] = none ∧
    (cdf2.getD 1 dBar).Close = 8 ∧ (cdf2.getD 1 dBar).Upper = some 7 ∧
    (cdf2.getD 0 dBar).Close = 5 ∧ (cdf2.getD 0 dBar).Upper = some 6 ∧
    ((8 : ℚ) > 7 ∧ (5 : ℚ) ≤ 6) := by decide
